import Mathlib

/-!
# Verification of `detect_secrets/plugins/common/initialize.py`

Shallow embedding of the plugin configuration resolver and instantiation
registry.  Python dictionaries are modelled as association lists
(`Dict V := List (String × V)`): lookup returns the first matching key,
assignment updates the first matching key in place or appends a fresh entry
at the end, exactly matching the insertion-order semantics of Python dicts
(whose keys are necessarily distinct; theorems carry `Nodup` hypotheses on
key lists where that uniqueness matters).

External collaborators that are not part of the source file
(`import_plugins`, `get_mapping_from_secret_type_to_class_name`,
`PluginOptions.get_disabled_plugins`, the baseline writer) are represented
by their results, passed in as parameters, or modelled from the spec where
a claim needs their behaviour.
-/

set_option autoImplicit false

namespace DetectSecrets

/-- A configuration value: the spec allows strings, numbers and booleans.
The merge logic never inspects values, so numbers are represented as `Int`. -/
inductive Value where
  | str (s : String)
  | num (n : Int)
  | boolean (b : Bool)
deriving DecidableEq, Repr

/-- A Python dict with `String` keys, as an insertion-ordered association list. -/
abbrev Dict (V : Type) : Type := List (String × V)

/-- Lookup `d[k]` as an `Option`: first entry whose key is `k`. -/
def dictGet? {V : Type} : Dict V → String → Option V
  | [], _ => none
  | (k₂, v) :: rest, k => if k₂ = k then some v else dictGet? rest k

/-- Python `d.get(k, dflt)`. -/
def dictGetD {V : Type} (d : Dict V) (k : String) (dflt : V) : V :=
  (dictGet? d k).getD dflt

/-- Assignment `d[k] = v`: replace the value of the existing entry for `k` in place,
or append a new entry at the end (Python dict assignment). -/
def dictSet {V : Type} : Dict V → String → V → Dict V
  | [], k, v => [(k, v)]
  | (k₂, v₂) :: rest, k, v =>
      if k₂ = k then (k, v) :: rest else (k₂, v₂) :: dictSet rest k v

/-- The key list of a dict, in insertion order. -/
def dictKeys {V : Type} (d : Dict V) : List String :=
  d.map Prod.fst

/-- Membership `k in d`. -/
def dictMem {V : Type} (d : Dict V) (k : String) : Prop :=
  k ∈ dictKeys d

instance {V : Type} (d : Dict V) (k : String) : Decidable (dictMem d k) := by
  unfold dictMem; infer_instance

@[simp] theorem dictGet?_nil {V : Type} (k : String) :
    dictGet? ([] : Dict V) k = none := rfl

@[simp] theorem dictGet?_cons {V : Type} (k₂ k : String) (v : V) (rest : Dict V) :
    dictGet? ((k₂, v) :: rest) k = if k₂ = k then some v else dictGet? rest k := rfl

@[simp] theorem dictSet_nil {V : Type} (k : String) (v : V) :
    dictSet ([] : Dict V) k v = [(k, v)] := rfl

@[simp] theorem dictSet_cons {V : Type} (k₂ k : String) (v₂ v : V) (rest : Dict V) :
    dictSet ((k₂, v₂) :: rest) k v
      = if k₂ = k then (k, v) :: rest else (k₂, v₂) :: dictSet rest k v := rfl

theorem dictGet?_set_self {V : Type} (d : Dict V) (k : String) (v : V) :
    dictGet? (dictSet d k v) k = some v := by
  induction d with
  | nil => simp
  | cons hd tl ih =>
      obtain ⟨k₂, v₂⟩ := hd
      by_cases h : k₂ = k <;> simp [h, ih]

theorem dictGet?_set_ne {V : Type} (d : Dict V) (k k' : String) (v : V)
    (h : k ≠ k') : dictGet? (dictSet d k v) k' = dictGet? d k' := by
  induction d with
  | nil => simp [h]
  | cons hd tl ih =>
      obtain ⟨k₂, v₂⟩ := hd
      by_cases h₂ : k₂ = k
      · subst h₂; simp [h]
      · simp [h₂, ih]

theorem dictKeys_set_of_mem {V : Type} (d : Dict V) (k : String) (v : V)
    (h : k ∈ dictKeys d) : dictKeys (dictSet d k v) = dictKeys d := by
  induction d with
  | nil => simp [dictKeys] at h
  | cons hd tl ih =>
      obtain ⟨k₂, v₂⟩ := hd
      by_cases h₂ : k₂ = k
      · subst h₂; simp [dictKeys]
      · simp only [dictKeys, List.map_cons, List.mem_cons] at h
        simp only [dictSet, if_neg h₂, dictKeys, List.map_cons]
        rcases h with h | h
        · exact absurd h.symm h₂
        · rw [show List.map Prod.fst (dictSet tl k v) = dictKeys (dictSet tl k v) from rfl,
              ih h]
          rfl

theorem mem_dictKeys_set {V : Type} (d : Dict V) (k k' : String) (v : V) :
    k' ∈ dictKeys (dictSet d k v) ↔ k' ∈ dictKeys d ∨ k' = k := by
  induction d with
  | nil => simp [dictKeys, eq_comm]
  | cons hd tl ih =>
      obtain ⟨k₂, v₂⟩ := hd
      by_cases h₂ : k₂ = k
      · subst h₂
        simp [dictKeys, eq_comm]
        tauto
      · simp only [dictSet, if_neg h₂, dictKeys, List.map_cons, List.mem_cons] at ih ⊢
        tauto

theorem dictGet?_eq_none_iff {V : Type} (d : Dict V) (k : String) :
    dictGet? d k = none ↔ k ∉ dictKeys d := by
  induction d with
  | nil => simp [dictKeys]
  | cons hd tl ih =>
      obtain ⟨k₂, v₂⟩ := hd
      by_cases h : k₂ = k
      · subst h; simp [dictKeys]
      · simp [h, ih, dictKeys, Ne.symm h]

theorem dictGet?_isSome_of_mem {V : Type} (d : Dict V) (k : String)
    (h : k ∈ dictKeys d) : ∃ v, dictGet? d k = some v := by
  cases hv : dictGet? d k with
  | none => exact absurd ((dictGet?_eq_none_iff d k).mp hv) (not_not_intro h)
  | some v => exact ⟨v, rfl⟩

/-! ## Embedding of `initialize.py` -/

/-- A constructed plugin instance.  The detector classes themselves are
external collaborators; an instance records which class was constructed and
with which configuration, which is all the resolver logic observes. -/
structure PluginInstance where
  className : String
  excludeLinesRegex : Option String
  automaton : Option Unit
  shouldVerify : Bool
  kwargs : Dict Value
deriving DecidableEq, Repr

/-- An exception escaping the initialization code: the `TypeError` raised by
a plugin constructor on a rejected keyword combination (re-raised by
`from_plugin_classname`), or a `KeyError` from an uncaught mapping lookup. -/
inductive InitError where
  | typeErr (msg : String)
  | keyErr (key : String)
deriving DecidableEq, Repr

/-- The shared cross-cutting options `from_plugin_classname` forwards to
every plugin constructor. -/
structure SharedOpts where
  exclude_lines_regex : Option String
  automaton : Option Unit
  should_verify : Bool
deriving DecidableEq, Repr

/-- A loadable plugin definition from the catalog: invoking the class with
the shared options and the plugin-specific keyword parameters either yields
an instance or raises (`TypeError` on a rejected keyword combination). -/
structure PluginDef where
  construct : SharedOpts → Dict Value → Except InitError PluginInstance

/-- The plugin catalog: result of `import_plugins(plugin_filenames)` (that
function lives in `plugins/common/util.py`, outside this file); the resolved
name-to-definition mapping is passed in explicitly. -/
abbrev Catalog : Type := Dict PluginDef

/-- Function `from_plugin_classname` (initialize.py:154-209): look the classname up in
the catalog; if absent, print a warning to stderr and return `None`; otherwise
invoke the class, re-raising any `TypeError` after logging a warning. -/
def from_plugin_classname (catalog : Catalog) (plugin_classname : String)
    (opts : SharedOpts) (kwargs : Dict Value) :
    Except InitError (Option PluginInstance) :=
  match dictGet? catalog plugin_classname with
  | none => .ok none
  | some klass =>
      match klass.construct opts kwargs with
      | .error e => .error e
      | .ok instance₀ => .ok (some instance₀)

/-- Function `from_parser_builder` (initialize.py:10-48): one `from_plugin_classname`
call per entry of `plugins_dict`, in iteration order, collecting the results
(including `None`s) into a tuple; an exception from any call propagates. -/
def from_parser_builder (catalog : Catalog) (plugins_dict : Dict (Dict Value))
    (opts : SharedOpts) : Except InitError (List (Option PluginInstance)) :=
  match plugins_dict with
  | [] => .ok []
  | (plugin_name, params) :: rest =>
      match from_plugin_classname catalog plugin_name opts params with
      | .error e => .error e
      | .ok instance₀ =>
          match from_parser_builder catalog rest opts with
          | .error e => .error e
          | .ok out => .ok (instance₀ :: out)

/-- Generator `_get_prioritized_parameters` (initialize.py:51-67): yield
`(plugin_name, param_name, param_value)` for every parameter whose flag in
`is_using_default_value_map` (defaulting to `False` when absent) equals
`prefer_default`. -/
def get_prioritized_parameters (plugins_dict : Dict (Dict Value))
    (is_using_default_value_map : Dict Bool) (prefer_default : Bool) :
    List (String × String × Value) :=
  plugins_dict.flatMap fun plugin_entry =>
    plugin_entry.2.filterMap fun param_entry =>
      if dictGetD is_using_default_value_map param_entry.1 false = prefer_default
      then some (plugin_entry.1, param_entry.1, param_entry.2)
      else none

/-- A plugin instance loaded from the baseline file; `vars(plugin)` is its
attribute dictionary, which always carries the plugin name under `"name"`. -/
structure BaselinePlugin where
  vars : Dict Value
deriving DecidableEq, Repr

/-- Helper `_remove_key` (initialize.py:85-88): copy the dict and drop `key`. -/
def remove_key {V : Type} (d : Dict V) (key : String) : Dict V :=
  d.filter fun entry => entry.1 ≠ key

/-- Dict `baseline_plugins_dict` (initialize.py:90-93): the comprehension
`{vars(p)['name']: _remove_key(vars(p), 'name') for p in baseline_plugins}`.
A record whose attribute dict lacks a string `"name"` would make the source
raise `KeyError` before any claim's behaviour is reached; such records are
skipped here and excluded by hypothesis in the theorems that need them. -/
def baseline_plugins_dict (baseline_plugins : List BaselinePlugin) :
    Dict (Dict Value) :=
  baseline_plugins.foldl
    (fun acc plugin =>
      match dictGet? plugin.vars "name" with
      | some (Value.str plugin_name) =>
          dictSet acc plugin_name (remove_key plugin.vars "name")
      | _ => acc)
    []

/-- The resolved command-line arguments object consumed by the merge.
`disabled_plugins` stands for `PluginOptions.get_disabled_plugins(args)`
(usage.py, outside this file): the externally supplied exclusion set derived
from command-line flags naming plugins to turn off. -/
structure Args where
  plugins : Dict (Dict Value)
  is_using_default_value : Dict Bool
  use_all_plugins : Bool
  no_verify : Bool
  exclude_lines : Option String
  plugin_filenames : Option (List String)
  disabled_plugins : List String
deriving DecidableEq, Repr

/-- One step of the merge loops (initialize.py:107 and :138):
`plugins_dict[plugin_name][param_name] = param_value`.  The outer lookup
raises `KeyError` when `plugin_name` is absent; both loops catch it and skip
the assignment (with a warning resp. debug log). -/
def apply_param_update (d : Dict (Dict Value)) (t : String × String × Value) :
    Dict (Dict Value) :=
  match dictGet? d t.1 with
  | none => d
  | some inner => dictSet d t.1 (dictSet inner t.2.1 t.2.2)

/-- Context A (initialize.py:96-112): seed from `dict(args.plugins)`, then
overwrite with every baseline parameter whose command-line flag says the
command-line value was a default. -/
def mergeA_config (baseline_plugins : List BaselinePlugin) (args : Args) :
    Dict (Dict Value) :=
  (get_prioritized_parameters (baseline_plugins_dict baseline_plugins)
      args.is_using_default_value true).foldl
    apply_param_update args.plugins

/-- Context B seed (initialize.py:123-128): the baseline's plugins minus the
disabled set. -/
def mergeB_seed (baseline_plugins : List BaselinePlugin) (args : Args) :
    Dict (Dict Value) :=
  (baseline_plugins_dict baseline_plugins).filter
    fun entry => ¬ args.disabled_plugins.contains entry.1

/-- Context B (initialize.py:122-143): seed from the baseline minus disabled
plugins, then overwrite with every command-line parameter whose flag says it
was explicitly supplied. -/
def mergeB_config (baseline_plugins : List BaselinePlugin) (args : Args) :
    Dict (Dict Value) :=
  (get_prioritized_parameters args.plugins
      args.is_using_default_value false).foldl
    apply_param_update (mergeB_seed baseline_plugins args)

/-- The resolved configuration `merge_plugins_from_baseline` hands to
`from_parser_builder`, per context. -/
def merge_plugins_config (baseline_plugins : List BaselinePlugin)
    (args : Args) : Dict (Dict Value) :=
  if args.use_all_plugins then mergeA_config baseline_plugins args
  else mergeB_config baseline_plugins args

/-- Function `merge_plugins_from_baseline` (initialize.py:70-151): resolve the
configuration for the caller's context and instantiate it. -/
def merge_plugins_from_baseline (catalog : Catalog)
    (baseline_plugins : List BaselinePlugin) (args : Args)
    (automaton : Option Unit) : Except InitError (List (Option PluginInstance)) :=
  from_parser_builder catalog (merge_plugins_config baseline_plugins args)
    { exclude_lines_regex := args.exclude_lines
      automaton := automaton
      should_verify := !args.no_verify }

/-- Local `plugin_init_vars` (initialize.py:239-240): `plugin.copy()` followed by
`.pop('name')` — the constructor parameters used by `from_secret_type`. -/
def plugin_init_vars (plugin : Dict Value) : Dict Value :=
  remove_key plugin "name"

/-- The loop of `from_secret_type` (initialize.py:237-252): find the first
settings record whose `'name'` equals the classname and instantiate it; a
record lacking `'name'` makes the lookup `plugin['name']` raise `KeyError`;
falling off the loop returns `None`. -/
def from_secret_type_loop (catalog : Catalog) (classname : String) :
    List (Dict Value) → Except InitError (Option PluginInstance)
  | [] => .ok none
  | plugin :: rest =>
      match dictGet? plugin "name" with
      | none => .error (.keyErr "name")
      | some nm =>
          if nm = Value.str classname then
            from_plugin_classname catalog classname
              { exclude_lines_regex := none, automaton := none,
                should_verify := false }
              (plugin_init_vars plugin)
          else
            from_secret_type_loop catalog classname rest

/-- Function `from_secret_type` (initialize.py:212-252).  `mapping` is the result of
`get_mapping_from_secret_type_to_class_name` (util.py, outside this file). -/
def from_secret_type (catalog : Catalog) (mapping : Dict String)
    (secret_type : String) (settings : List (Dict Value)) :
    Except InitError (Option PluginInstance) :=
  match dictGet? mapping secret_type with
  | none => .ok none
  | some classname => from_secret_type_loop catalog classname settings

/-! ## Lemmas about the merge fold -/

/-- The value resolved for parameter `q` of plugin `p` in a configuration. -/
def innerGet (d : Dict (Dict Value)) (p q : String) : Option Value :=
  (dictGet? d p).bind fun inner => dictGet? inner q

theorem dictKeys_apply_param_update (d : Dict (Dict Value))
    (t : String × String × Value) :
    dictKeys (apply_param_update d t) = dictKeys d := by
  unfold apply_param_update
  cases h : dictGet? d t.1 with
  | none => rfl
  | some inner =>
      apply dictKeys_set_of_mem
      by_contra hmem
      rw [← dictGet?_eq_none_iff] at hmem
      exact Option.noConfusion (hmem.symm.trans h)

theorem dictKeys_foldl_apply_param_update (ts : List (String × String × Value))
    (d : Dict (Dict Value)) :
    dictKeys (ts.foldl apply_param_update d) = dictKeys d := by
  induction ts generalizing d with
  | nil => rfl
  | cons t ts ih => rw [List.foldl_cons, ih, dictKeys_apply_param_update]

theorem innerGet_apply_param_update_of_ne (d : Dict (Dict Value))
    (t : String × String × Value) (p q : String)
    (h : ¬ (t.1 = p ∧ t.2.1 = q)) :
    innerGet (apply_param_update d t) p q = innerGet d p q := by
  unfold apply_param_update
  cases hget : dictGet? d t.1 with
  | none => rfl
  | some inner =>
      by_cases hp : t.1 = p
      · subst hp
        have hq : t.2.1 ≠ q := fun hq => h ⟨rfl, hq⟩
        unfold innerGet
        rw [dictGet?_set_self, hget]
        exact dictGet?_set_ne inner t.2.1 q t.2.2 hq
      · unfold innerGet
        rw [dictGet?_set_ne d t.1 p _ hp]

theorem innerGet_foldl_of_not_targeted (ts : List (String × String × Value))
    (d : Dict (Dict Value)) (p q : String)
    (h : ∀ t ∈ ts, ¬ (t.1 = p ∧ t.2.1 = q)) :
    innerGet (ts.foldl apply_param_update d) p q = innerGet d p q := by
  induction ts generalizing d with
  | nil => rfl
  | cons t ts ih =>
      rw [List.foldl_cons, ih _ (fun t' ht' => h t' (List.mem_cons_of_mem t ht')),
        innerGet_apply_param_update_of_ne d t p q (h t (List.mem_cons_self t ts))]

theorem mem_dictKeys_foldl_apply_param_update
    (ts : List (String × String × Value)) (d : Dict (Dict Value)) (p : String)
    (h : p ∈ dictKeys d) : p ∈ dictKeys (ts.foldl apply_param_update d) := by
  rw [dictKeys_foldl_apply_param_update]; exact h

theorem innerGet_apply_param_update_self (d : Dict (Dict Value))
    (p q : String) (v : Value) (h : p ∈ dictKeys d) :
    innerGet (apply_param_update d (p, q, v)) p q = some v := by
  obtain ⟨inner, hinner⟩ := dictGet?_isSome_of_mem d p h
  unfold apply_param_update innerGet
  simp only [hinner, dictGet?_set_self, Option.bind_some]
  exact dictGet?_set_self inner q v

theorem innerGet_foldl_targeted (l₁ l₂ : List (String × String × Value))
    (d : Dict (Dict Value)) (p q : String) (v : Value)
    (hmem : p ∈ dictKeys d)
    (h₂ : ∀ t ∈ l₂, ¬ (t.1 = p ∧ t.2.1 = q)) :
    innerGet ((l₁ ++ (p, q, v) :: l₂).foldl apply_param_update d) p q = some v := by
  rw [List.foldl_append, List.foldl_cons,
    innerGet_foldl_of_not_targeted l₂ _ p q h₂,
    innerGet_apply_param_update_self]
  exact mem_dictKeys_foldl_apply_param_update l₁ d p hmem

/-! ## Lemmas about the prioritized-parameter generator -/

theorem mem_get_prioritized_parameters
    (plugins_dict : Dict (Dict Value)) (flags : Dict Bool)
    (prefer_default : Bool) (t : String × String × Value)
    (h : t ∈ get_prioritized_parameters plugins_dict flags prefer_default) :
    t.1 ∈ dictKeys plugins_dict ∧ dictGetD flags t.2.1 false = prefer_default := by
  unfold get_prioritized_parameters at h
  rw [List.mem_flatMap] at h
  obtain ⟨entry, hentry, ht⟩ := h
  rw [List.mem_filterMap] at ht
  obtain ⟨pe, hpe, hteq⟩ := ht
  by_cases hc : dictGetD flags pe.1 false = prefer_default
  · rw [if_pos hc] at hteq
    cases hteq
    exact ⟨List.mem_map_of_mem Prod.fst hentry, hc⟩
  · rw [if_neg hc] at hteq
    cases hteq

theorem get_prioritized_parameters_append
    (d₁ d₂ : Dict (Dict Value)) (flags : Dict Bool) (prefer_default : Bool) :
    get_prioritized_parameters (d₁ ++ d₂) flags prefer_default
      = get_prioritized_parameters d₁ flags prefer_default
        ++ get_prioritized_parameters d₂ flags prefer_default := by
  unfold get_prioritized_parameters
  exact List.flatMap_append d₁ d₂ _

theorem get_prioritized_parameters_cons
    (entry : String × Dict Value) (d : Dict (Dict Value)) (flags : Dict Bool)
    (prefer_default : Bool) :
    get_prioritized_parameters (entry :: d) flags prefer_default
      = (entry.2.filterMap fun pe =>
          if dictGetD flags pe.1 false = prefer_default
          then some (entry.1, pe.1, pe.2) else none)
        ++ get_prioritized_parameters d flags prefer_default := by
  unfold get_prioritized_parameters
  exact List.flatMap_cons _ _ _

/-- Decompose an association list at the first occurrence of a present key. -/
theorem dict_first_decomp {V : Type} (d : Dict V) (k : String) (v : V)
    (h : dictGet? d k = some v) :
    ∃ l₁ l₂, d = l₁ ++ (k, v) :: l₂ ∧ k ∉ dictKeys l₁ := by
  induction d with
  | nil => simp at h
  | cons hd tl ih =>
      obtain ⟨k₂, v₂⟩ := hd
      by_cases hk : k₂ = k
      · subst hk
        rw [dictGet?_cons, if_pos rfl] at h
        injection h with h
        subst h
        exact ⟨[], tl, rfl, by simp [dictKeys]⟩
      · simp only [dictGet?_cons, if_neg hk] at h
        obtain ⟨l₁, l₂, heq, hnot⟩ := ih h
        refine ⟨(k₂, v₂) :: l₁, l₂, by rw [heq]; rfl, ?_⟩
        simp only [dictKeys, List.map_cons, List.mem_cons]
        rintro (h' | h')
        · exact hk h'.symm
        · exact hnot h'

theorem dictKeys_append {V : Type} (d₁ d₂ : Dict V) :
    dictKeys (d₁ ++ d₂) = dictKeys d₁ ++ dictKeys d₂ :=
  List.map_append Prod.fst d₁ d₂

theorem not_mem_right_of_nodup_decomp {V : Type} (l₁ l₂ : Dict V)
    (k : String) (v : V) (hnd : (dictKeys (l₁ ++ (k, v) :: l₂)).Nodup) :
    k ∉ dictKeys l₂ := by
  rw [dictKeys_append] at hnd
  have := List.Nodup.of_append_right hnd
  simp only [dictKeys, List.map_cons, List.nodup_cons] at this
  exact this.1

theorem dictGet?_some_mem {V : Type} (d : Dict V) (k : String) (v : V)
    (h : dictGet? d k = some v) : k ∈ dictKeys d := by
  by_contra hmem
  rw [← dictGet?_eq_none_iff] at hmem
  exact Option.noConfusion (hmem.symm.trans h)

theorem dictKeys_nodup_set {V : Type} (d : Dict V) (k : String) (v : V)
    (h : (dictKeys d).Nodup) : (dictKeys (dictSet d k v)).Nodup := by
  induction d with
  | nil => simp [dictKeys]
  | cons hd tl ih =>
      obtain ⟨k₂, v₂⟩ := hd
      simp only [dictKeys, List.map_cons, List.nodup_cons] at h
      by_cases hk : k₂ = k
      · subst hk
        simpa [dictKeys] using h
      · simp only [dictSet, if_neg hk, dictKeys, List.map_cons, List.nodup_cons]
        constructor
        · intro hmem
          rcases (mem_dictKeys_set tl k k₂ v).mp hmem with h' | h'
          · exact h.1 h'
          · exact hk h'
        · exact ih h.2

/-- The comprehension building `baseline_plugins_dict` produces a dict with
distinct keys (duplicate baseline names collapse, last record winning). -/
theorem baseline_plugins_dict_keys_nodup (baseline_plugins : List BaselinePlugin) :
    (dictKeys (baseline_plugins_dict baseline_plugins)).Nodup := by
  unfold baseline_plugins_dict
  generalize hacc : ([] : Dict (Dict Value)) = acc
  have hnd : (dictKeys acc).Nodup := by rw [← hacc]; simp [dictKeys]
  clear hacc
  induction baseline_plugins generalizing acc with
  | nil => exact hnd
  | cons plugin rest ih =>
      rw [List.foldl_cons]
      apply ih
      cases hname : dictGet? plugin.vars "name" with
      | none => exact hnd
      | some v =>
          cases v with
          | str s => exact dictKeys_nodup_set _ _ _ hnd
          | num n => exact hnd
          | boolean b => exact hnd

theorem mem_filterMap_triples (pn : String) (m : Dict Value) (flags : Dict Bool)
    (prefer_default : Bool) (t : String × String × Value)
    (h : t ∈ m.filterMap fun pe =>
        if dictGetD flags pe.1 false = prefer_default
        then some (pn, pe.1, pe.2) else none) :
    t.1 = pn ∧ t.2.1 ∈ dictKeys m := by
  rw [List.mem_filterMap] at h
  obtain ⟨pe, hpe, ht⟩ := h
  by_cases hc : dictGetD flags pe.1 false = prefer_default
  · rw [if_pos hc] at ht
    cases ht
    exact ⟨rfl, List.mem_map_of_mem Prod.fst hpe⟩
  · rw [if_neg hc] at ht
    cases ht

/-- A parameter `(p, q)` whose `src` value is yielded by the generator ends
up resolved to that value: the loop writes it and no later iteration
overwrites it (keys of `src` and of its parameter dicts being distinct). -/
theorem innerGet_merge_yielded (src : Dict (Dict Value)) (flags : Dict Bool)
    (prefer_default : Bool) (seed : Dict (Dict Value)) (p q : String)
    (cp : Dict Value) (v : Value)
    (hsrc : dictGet? src p = some cp)
    (hsrc_nodup : (dictKeys src).Nodup)
    (hcp : dictGet? cp q = some v)
    (hcp_nodup : (dictKeys cp).Nodup)
    (hflag : dictGetD flags q false = prefer_default)
    (hmem : p ∈ dictKeys seed) :
    innerGet ((get_prioritized_parameters src flags prefer_default).foldl
      apply_param_update seed) p q = some v := by
  obtain ⟨l₁, l₂, hdecomp, hpl₁⟩ := dict_first_decomp src p cp hsrc
  rw [hdecomp] at hsrc_nodup
  have hpl₂ := not_mem_right_of_nodup_decomp l₁ l₂ p cp hsrc_nodup
  obtain ⟨m₁, m₂, hcpdec, hqm₁⟩ := dict_first_decomp cp q v hcp
  have hqm₂ : q ∉ dictKeys m₂ := by
    rw [hcpdec] at hcp_nodup
    exact not_mem_right_of_nodup_decomp m₁ m₂ q v hcp_nodup
  rw [hdecomp, get_prioritized_parameters_append, get_prioritized_parameters_cons]
  rw [show ((p, cp) : String × Dict Value).2 = cp from rfl, hcpdec]
  rw [List.filterMap_append, List.filterMap_cons]
  rw [show dictGetD flags ((q, v) : String × Value).1 false
      = prefer_default from hflag]
  simp only [if_pos]
  rw [show (((p, cp) : String × Dict Value).1, ((q, v) : String × Value).1,
      ((q, v) : String × Value).2) = (p, q, v) from rfl]
  rw [show ∀ (a b c d : List (String × String × Value)),
      a ++ (b ++ (p, q, v) :: c ++ d) = (a ++ b) ++ (p, q, v) :: (c ++ d) from
    by intro a b c d; simp]
  apply innerGet_foldl_targeted
  · exact hmem
  · intro t ht
    rintro ⟨htp, htq⟩
    rcases List.mem_append.mp ht with ht | ht
    · obtain ⟨-, htm⟩ := mem_filterMap_triples p m₂ _ _ t ht
      rw [htq] at htm
      exact hqm₂ htm
    · obtain ⟨htk, -⟩ := mem_get_prioritized_parameters l₂ _ _ t ht
      rw [htp] at htk
      exact hpl₂ htk

/-- A parameter `q` whose flag disagrees with `prefer_default` is never
yielded by the generator, so the merge loop leaves its seed value alone (for
every plugin). -/
theorem innerGet_merge_unyielded (src : Dict (Dict Value)) (flags : Dict Bool)
    (prefer_default : Bool) (seed : Dict (Dict Value)) (p q : String)
    (hflag : dictGetD flags q false ≠ prefer_default) :
    innerGet ((get_prioritized_parameters src flags prefer_default).foldl
      apply_param_update seed) p q = innerGet seed p q := by
  apply innerGet_foldl_of_not_targeted
  intro t ht
  rintro ⟨-, htq⟩
  obtain ⟨-, hflag'⟩ := mem_get_prioritized_parameters _ _ _ t ht
  rw [htq] at hflag'
  exact hflag hflag'

/-! ## Claims -/

/-- Claim C1 — Context A precedence: with `use_all_plugins` true, for every
parameter `q` of a plugin `p` present in both the command-line plugin set and
the baseline, if the command-line default-origin flag for `q` reads "was
default" (true) and the baseline supplies a value `v`, the resolved value is
`v`; if the flag reads "was explicit" (false), the resolved value is the
command-line value regardless of baseline content. -/
theorem C1_contextA_precedence (baseline_plugins : List BaselinePlugin)
    (args : Args) (p q : String) (bp : Dict Value)
    (hA : args.use_all_plugins = true)
    (hp_cmd : p ∈ dictKeys args.plugins)
    (hp_base : dictGet? (baseline_plugins_dict baseline_plugins) p = some bp)
    (hbp_nodup : (dictKeys bp).Nodup) :
    (∀ v, dictGetD args.is_using_default_value q false = true →
        dictGet? bp q = some v →
        innerGet (merge_plugins_config baseline_plugins args) p q = some v)
    ∧ (dictGetD args.is_using_default_value q false = false →
        innerGet (merge_plugins_config baseline_plugins args) p q
          = innerGet args.plugins p q) := by
  rw [merge_plugins_config, if_pos (by rw [hA])]
  unfold mergeA_config
  constructor
  · intro v hflag hbq
    exact innerGet_merge_yielded _ _ _ _ p q bp v hp_base
      (baseline_plugins_dict_keys_nodup baseline_plugins) hbq hbp_nodup
      hflag hp_cmd
  · intro hflag
    exact innerGet_merge_unyielded _ _ _ _ p q (by rw [hflag]; decide)

/-- Claim C2 — Context B precedence: with `use_all_plugins` false, for every
parameter `q` of a plugin `p` present in the baseline-seeded set, if the
default-origin flag for `q` reads "was explicit" (false) the resolved value
equals the command-line value; otherwise the resolved value equals the
baseline value (absent when the baseline lacks it). -/
theorem C2_contextB_precedence (baseline_plugins : List BaselinePlugin)
    (args : Args) (p q : String) (bp : Dict Value)
    (hB : args.use_all_plugins = false)
    (hp_seed : dictGet? (mergeB_seed baseline_plugins args) p = some bp) :
    (∀ cp v, dictGetD args.is_using_default_value q false = false →
        dictGet? args.plugins p = some cp →
        dictGet? cp q = some v →
        (dictKeys args.plugins).Nodup →
        (dictKeys cp).Nodup →
        innerGet (merge_plugins_config baseline_plugins args) p q = some v)
    ∧ (dictGetD args.is_using_default_value q false = true →
        innerGet (merge_plugins_config baseline_plugins args) p q
          = dictGet? bp q) := by
  rw [merge_plugins_config, if_neg (by simp [hB])]
  unfold mergeB_config
  constructor
  · intro cp v hflag hcp hcpq hnd hcpnd
    exact innerGet_merge_yielded _ _ _ _ p q cp v hcp hnd hcpq hcpnd hflag
      (dictGet?_some_mem _ _ _ hp_seed)
  · intro hflag
    rw [innerGet_merge_unyielded _ _ _ _ p q (by rw [hflag]; decide)]
    unfold innerGet
    rw [hp_seed]
    rfl

/-- Claim C5 — Exclusion: in Context B, a plugin name in the caller's disabled
set never appears in the resolved configuration handed to the instantiator,
regardless of baseline content and of explicit command-line parameters. -/
theorem C5_exclusion (baseline_plugins : List BaselinePlugin) (args : Args)
    (p : String)
    (hB : args.use_all_plugins = false)
    (hdis : p ∈ args.disabled_plugins) :
    p ∉ dictKeys (merge_plugins_config baseline_plugins args) := by
  rw [merge_plugins_config, if_neg (by simp [hB])]
  unfold mergeB_config
  rw [dictKeys_foldl_apply_param_update]
  unfold mergeB_seed dictKeys
  intro hmem
  rw [List.mem_map] at hmem
  obtain ⟨entry, hentry, hfst⟩ := hmem
  rw [List.mem_filter] at hentry
  have hnc := of_decide_eq_true hentry.2
  apply hnc
  rw [hfst]
  exact List.elem_eq_true_of_mem hdis

/-- Claim C10 — Missing-flag fallback: a parameter name absent from the
default-origin map is treated as explicitly supplied: in Context A the
baseline value never overrides the command-line value for it, and in
Context B the command-line value always overrides the baseline-seeded
value for it. -/
theorem C10_missing_flag_fallback (baseline_plugins : List BaselinePlugin)
    (args : Args) (p q : String)
    (hflag : dictGet? args.is_using_default_value q = none) :
    (args.use_all_plugins = true →
        innerGet (merge_plugins_config baseline_plugins args) p q
          = innerGet args.plugins p q)
    ∧ (args.use_all_plugins = false →
        ∀ cp v, dictGet? args.plugins p = some cp →
          dictGet? cp q = some v →
          (dictKeys args.plugins).Nodup →
          (dictKeys cp).Nodup →
          p ∈ dictKeys (mergeB_seed baseline_plugins args) →
          innerGet (merge_plugins_config baseline_plugins args) p q = some v) := by
  have hgetd : dictGetD args.is_using_default_value q false = false := by
    unfold dictGetD
    rw [hflag]
    rfl
  constructor
  · intro hA
    rw [merge_plugins_config, if_pos (by rw [hA])]
    unfold mergeA_config
    exact innerGet_merge_unyielded _ _ _ _ p q (by rw [hgetd]; decide)
  · intro hB cp v hcp hcpq hnd hcpnd hmem
    rw [merge_plugins_config, if_neg (by simp [hB])]
    unfold mergeB_config
    exact innerGet_merge_yielded _ _ _ _ p q cp v hcp hnd hcpq hcpnd hgetd hmem

/-! ## Concrete inputs for the witnesses -/

/-- A two-record baseline (the spec's §8 example, plus a keyword detector). -/
def ex_baseline : List BaselinePlugin :=
  [⟨[("name", Value.str "Base64HighEntropyString"),
     ("base64_limit", Value.num 3)]⟩,
   ⟨[("name", Value.str "KeywordDetector"),
     ("keyword_exclude", Value.str "x")]⟩]

/-- Context A arguments: the command line carries a defaulted
`base64_limit`. -/
def ex_argsA : Args :=
  { plugins := [("Base64HighEntropyString", [("base64_limit", Value.num 4)]),
                ("KeywordDetector", [])]
    is_using_default_value := [("base64_limit", true)]
    use_all_plugins := true
    no_verify := true
    exclude_lines := none
    plugin_filenames := none
    disabled_plugins := [] }

/-- Context B arguments: an explicit `base64_limit`, keyword detection
disabled. -/
def ex_argsB : Args :=
  { plugins := [("Base64HighEntropyString", [("base64_limit", Value.num 4)])]
    is_using_default_value := [("base64_limit", false)]
    use_all_plugins := false
    no_verify := true
    exclude_lines := none
    plugin_filenames := none
    disabled_plugins := ["KeywordDetector"] }

theorem C1_contextA_precedence_witness :
    innerGet (merge_plugins_config ex_baseline ex_argsA)
      "Base64HighEntropyString" "base64_limit" = some (Value.num 3) :=
  (C1_contextA_precedence ex_baseline ex_argsA "Base64HighEntropyString"
      "base64_limit" [("base64_limit", Value.num 3)]
      rfl (by decide) (by decide) (by decide)).1
    (Value.num 3) (by decide) (by decide)

theorem C2_contextB_precedence_witness :
    innerGet (merge_plugins_config ex_baseline ex_argsB)
      "Base64HighEntropyString" "base64_limit" = some (Value.num 4) :=
  (C2_contextB_precedence ex_baseline ex_argsB "Base64HighEntropyString"
      "base64_limit" [("base64_limit", Value.num 3)]
      rfl (by decide)).1
    [("base64_limit", Value.num 4)] (Value.num 4)
    (by decide) (by decide) (by decide) (by decide) (by decide)

theorem C5_exclusion_witness :
    "KeywordDetector" ∉ dictKeys (merge_plugins_config ex_baseline ex_argsB) :=
  C5_exclusion ex_baseline ex_argsB "KeywordDetector" rfl (by decide)

theorem C10_missing_flag_fallback_witness :
    innerGet (merge_plugins_config ex_baseline ex_argsA)
      "Base64HighEntropyString" "hex_limit"
      = innerGet ex_argsA.plugins "Base64HighEntropyString" "hex_limit" :=
  (C10_missing_flag_fallback ex_baseline ex_argsA "Base64HighEntropyString"
      "hex_limit" (by decide)).1 rfl

/-! ## Instantiation lemmas and claims C3, C4, C7 -/

/-- When every catalog-known entry of the configuration constructs
successfully, `from_parser_builder` succeeds, returns one slot per entry,
and fills the slots of catalog-unknown names with `none`. -/
theorem from_parser_builder_ok (catalog : Catalog)
    (plugins_dict : Dict (Dict Value)) (opts : SharedOpts)
    (hok : ∀ entry ∈ plugins_dict, ∀ klass,
        dictGet? catalog entry.1 = some klass →
        ∃ inst, klass.construct opts entry.2 = .ok inst) :
    ∃ out, from_parser_builder catalog plugins_dict opts = .ok out
      ∧ out.length = plugins_dict.length
      ∧ ∀ i (hi : i < plugins_dict.length) (ho : i < out.length),
          dictGet? catalog (plugins_dict.get ⟨i, hi⟩).1 = none →
          out.get ⟨i, ho⟩ = none := by
  induction plugins_dict with
  | nil =>
      refine ⟨[], rfl, rfl, ?_⟩
      intro i hi
      exact absurd hi (Nat.not_lt_zero i)
  | cons entry rest ih =>
      obtain ⟨pn, params⟩ := entry
      obtain ⟨out', hout', hlen', hnone'⟩ := ih fun e he k hk =>
        hok e (List.mem_cons_of_mem _ he) k hk
      cases hcat : dictGet? catalog pn with
      | none =>
          refine ⟨none :: out', ?_, by simp [hlen'], ?_⟩
          · unfold from_parser_builder from_plugin_classname
            rw [hcat, hout']
          · intro i hi ho hnone
            cases i with
            | zero => rfl
            | succ j =>
                exact hnone' j (Nat.lt_of_succ_lt_succ hi)
                  (Nat.lt_of_succ_lt_succ ho) hnone
      | some klass =>
          obtain ⟨inst, hinst⟩ :=
            hok (pn, params) (List.mem_cons_self _ _) klass hcat
          have hinst' : klass.construct opts params = .ok inst := hinst
          refine ⟨some inst :: out', ?_, by simp [hlen'], ?_⟩
          · unfold from_parser_builder from_plugin_classname
            simp only [hcat, hinst', hout']
          · intro i hi ho hnone
            cases i with
            | zero => exact absurd hnone (by rw [show (((pn, params) :: rest).get
                ⟨0, hi⟩).1 = pn from rfl, hcat]; intro hc; cases hc)
            | succ j =>
                exact hnone' j (Nat.lt_of_succ_lt_succ hi)
                  (Nat.lt_of_succ_lt_succ ho) hnone

/-- Claim C4 — Construction failure propagation: when the classname is found
in the catalog and the definition rejects the keyword parameters, the
instantiation call raises the constructor's error to the caller instead of
returning `none`. -/
theorem C4_construction_failure_propagation (catalog : Catalog)
    (plugin_classname : String) (klass : PluginDef) (opts : SharedOpts)
    (kwargs : Dict Value) (e : InitError)
    (hfound : dictGet? catalog plugin_classname = some klass)
    (hraise : klass.construct opts kwargs = .error e) :
    from_plugin_classname catalog plugin_classname opts kwargs = .error e := by
  unfold from_plugin_classname
  simp only [hfound, hraise]

/-- Claim C7 — Slot preservation: a successful `from_parser_builder` run
returns exactly one slot per entry of the mapping, in iteration order, each
slot holding that entry's `from_plugin_classname` result (`none` included,
never filtered out). -/
theorem C7_slot_preservation (catalog : Catalog)
    (plugins_dict : Dict (Dict Value)) (opts : SharedOpts)
    (out : List (Option PluginInstance))
    (h : from_parser_builder catalog plugins_dict opts = .ok out) :
    out.length = plugins_dict.length
    ∧ ∀ i (hi : i < plugins_dict.length) (ho : i < out.length),
        from_plugin_classname catalog (plugins_dict.get ⟨i, hi⟩).1 opts
          (plugins_dict.get ⟨i, hi⟩).2 = .ok (out.get ⟨i, ho⟩) := by
  induction plugins_dict generalizing out with
  | nil =>
      unfold from_parser_builder at h
      injection h with h
      subst h
      exact ⟨rfl, fun i hi => absurd hi (Nat.not_lt_zero i)⟩
  | cons entry rest ih =>
      obtain ⟨pn, params⟩ := entry
      unfold from_parser_builder at h
      cases hfc : from_plugin_classname catalog pn opts params with
      | error e => rw [hfc] at h; cases h
      | ok inst =>
          rw [hfc] at h
          cases hrest : from_parser_builder catalog rest opts with
          | error e => rw [hrest] at h; cases h
          | ok out' =>
              rw [hrest] at h
              injection h with h
              subst h
              obtain ⟨hlen, hslot⟩ := ih out' hrest
              refine ⟨by simp [hlen], ?_⟩
              intro i hi ho
              cases i with
              | zero => exact hfc
              | succ j =>
                  exact hslot j (Nat.lt_of_succ_lt_succ hi)
                    (Nat.lt_of_succ_lt_succ ho)

/-- Claim C3 — Unknown-plugin tolerance: in Context A, a baseline record whose
name is not in the starting set is skipped (the resolved configuration only
contains command-line plugin names), and provided every catalog-known plugin
constructs, the whole merge completes without raising, yielding one slot per
resolved plugin with `none` exactly where the catalog lacks the name.
(`_hwf` excludes baseline records without a string `name` attribute, on which
the source would raise `KeyError` before reaching the tolerated case.) -/
theorem C3_unknown_plugin_tolerance (catalog : Catalog)
    (baseline_plugins : List BaselinePlugin) (args : Args)
    (automaton : Option Unit)
    (hA : args.use_all_plugins = true)
    (_hwf : ∀ plugin ∈ baseline_plugins,
        ∃ nm, dictGet? plugin.vars "name" = some (Value.str nm))
    (hok : ∀ entry ∈ merge_plugins_config baseline_plugins args, ∀ klass,
        dictGet? catalog entry.1 = some klass →
        ∃ inst, klass.construct
          ⟨args.exclude_lines, automaton, !args.no_verify⟩ entry.2 = .ok inst) :
    (∀ p ∈ dictKeys (merge_plugins_config baseline_plugins args),
        p ∈ dictKeys args.plugins)
    ∧ ∃ out, merge_plugins_from_baseline catalog baseline_plugins args automaton
          = .ok out
        ∧ out.length = (merge_plugins_config baseline_plugins args).length
        ∧ ∀ i (hi : i < (merge_plugins_config baseline_plugins args).length)
            (ho : i < out.length),
            dictGet? catalog
              ((merge_plugins_config baseline_plugins args).get ⟨i, hi⟩).1 = none →
            out.get ⟨i, ho⟩ = none := by
  constructor
  · intro p hp
    rw [merge_plugins_config, if_pos (by rw [hA])] at hp
    unfold mergeA_config at hp
    rw [dictKeys_foldl_apply_param_update] at hp
    exact hp
  · exact from_parser_builder_ok catalog _ _ hok

/-- An always-succeeding catalog definition: records the shared options and
keyword parameters it was constructed with. -/
def ex_ok_plugin (cname : String) : PluginDef :=
  ⟨fun opts kwargs =>
    .ok ⟨cname, opts.exclude_lines_regex, opts.automaton, opts.should_verify,
      kwargs⟩⟩

/-- A definition that rejects every keyword combination, as a plugin class
whose `__init__` raises `TypeError`. -/
def ex_rejecting_plugin : PluginDef :=
  ⟨fun _ _ => .error (.typeErr "unexpected keyword argument")⟩

/-- A catalog knowing the entropy plugin and a rejecting plugin, but not the
keyword detector. -/
def ex_catalog : Catalog :=
  [("Base64HighEntropyString", ex_ok_plugin "Base64HighEntropyString"),
   ("Rejecting", ex_rejecting_plugin)]

theorem C4_construction_failure_propagation_witness :
    from_plugin_classname ex_catalog "Rejecting" ⟨none, none, false⟩
      [("bogus", Value.num 0)] = .error (.typeErr "unexpected keyword argument") :=
  C4_construction_failure_propagation ex_catalog "Rejecting" ex_rejecting_plugin
    ⟨none, none, false⟩ [("bogus", Value.num 0)]
    (.typeErr "unexpected keyword argument") rfl rfl

theorem C3_unknown_plugin_tolerance_witness :
    (∀ p ∈ dictKeys (merge_plugins_config ex_baseline ex_argsA),
        p ∈ dictKeys ex_argsA.plugins)
    ∧ ∃ out, merge_plugins_from_baseline ex_catalog ex_baseline ex_argsA none
          = .ok out
        ∧ out.length = (merge_plugins_config ex_baseline ex_argsA).length
        ∧ ∀ i (hi : i < (merge_plugins_config ex_baseline ex_argsA).length)
            (ho : i < out.length),
            dictGet? ex_catalog
              ((merge_plugins_config ex_baseline ex_argsA).get ⟨i, hi⟩).1 = none →
            out.get ⟨i, ho⟩ = none :=
  C3_unknown_plugin_tolerance ex_catalog ex_baseline ex_argsA none rfl
    (by
      intro plugin hp
      simp only [ex_baseline, List.mem_cons, List.not_mem_nil, or_false] at hp
      rcases hp with h | h
      · rw [h]; exact ⟨"Base64HighEntropyString", rfl⟩
      · rw [h]; exact ⟨"KeywordDetector", rfl⟩)
    (by
      intro entry he klass hk
      rw [show merge_plugins_config ex_baseline ex_argsA
          = [("Base64HighEntropyString", [("base64_limit", Value.num 3)]),
             ("KeywordDetector", [])] from by decide] at he
      simp only [List.mem_cons, List.not_mem_nil, or_false] at he
      rcases he with h | h
      · rw [h] at hk
        rw [show dictGet? ex_catalog "Base64HighEntropyString"
            = some (ex_ok_plugin "Base64HighEntropyString") from rfl] at hk
        injection hk with hk
        subst hk
        rw [h]
        exact ⟨_, rfl⟩
      · rw [h] at hk
        have hk' : (none : Option PluginDef) = some klass := hk
        exact Option.noConfusion hk')

/-! ## Claim C9 — name-key stripping -/

theorem dictGet?_remove_key_self {V : Type} (d : Dict V) (k : String) :
    dictGet? (remove_key d k) k = none := by
  induction d with
  | nil => rfl
  | cons hd tl ih =>
      obtain ⟨k₂, v₂⟩ := hd
      by_cases h : k₂ = k
      · subst h
        simpa [remove_key] using ih
      · simpa [remove_key, h] using ih

theorem mem_dictSet_cases {V : Type} (d : Dict V) (k : String) (v : V)
    (e : String × V) (h : e ∈ dictSet d k v) : e ∈ d ∨ e = (k, v) := by
  induction d with
  | nil => simpa using h
  | cons hd tl ih =>
      obtain ⟨k₂, v₂⟩ := hd
      by_cases hk : k₂ = k
      · subst hk
        rw [dictSet_cons, if_pos rfl] at h
        rcases List.mem_cons.mp h with h | h
        · exact Or.inr h
        · exact Or.inl (List.mem_cons_of_mem _ h)
      · rw [dictSet_cons, if_neg hk] at h
        rcases List.mem_cons.mp h with h | h
        · exact Or.inl (h ▸ List.mem_cons_self _ _)
        · rcases ih h with h' | h'
          · exact Or.inl (List.mem_cons_of_mem _ h')
          · exact Or.inr h'

/-- Claim C9 — Name-key stripping: every parameter set the merge derives from a
baseline record, and the constructor parameter set `from_secret_type` derives
from a settings record, lacks the `"name"` key — it is removed before use. -/
theorem C9_name_key_stripping (baseline_plugins : List BaselinePlugin) :
    (∀ entry ∈ baseline_plugins_dict baseline_plugins,
        dictGet? entry.2 "name" = none)
    ∧ ∀ plugin : Dict Value, dictGet? (plugin_init_vars plugin) "name" = none := by
  constructor
  · unfold baseline_plugins_dict
    generalize hacc : ([] : Dict (Dict Value)) = acc
    have hbase : ∀ entry ∈ acc, dictGet? entry.2 "name" = none := by
      rw [← hacc]
      intro entry h
      cases h
    clear hacc
    induction baseline_plugins generalizing acc with
    | nil => exact hbase
    | cons plugin rest ih =>
        rw [List.foldl_cons]
        apply ih
        cases hname : dictGet? plugin.vars "name" with
        | none => exact hbase
        | some v =>
            cases v with
            | str s =>
                intro entry he
                rcases mem_dictSet_cases _ _ _ _ he with h | h
                · exact hbase entry h
                · rw [h]
                  exact dictGet?_remove_key_self plugin.vars "name"
            | num n => exact hbase
            | boolean b => exact hbase
  · intro plugin
    exact dictGet?_remove_key_self plugin "name"

theorem C9_name_key_stripping_witness :
    dictGet? ([("base64_limit", Value.num 3)] : Dict Value) "name" = none :=
  (C9_name_key_stripping ex_baseline).1
    ("Base64HighEntropyString", [("base64_limit", Value.num 3)]) (by decide)

/-! ## Claim C6 — round-trip identity -/

/-- Modelled from the spec: the baseline writer persists, for each plugin of
a resolved configuration, a record whose attribute set is the plugin's
parameter set together with the plugin's name under the key `"name"`
(spec §6: "each record's parameter set always includes the plugin's `name`
as one key"). -/
def baseline_of_config (cfg : Dict (Dict Value)) : List BaselinePlugin :=
  cfg.map fun entry => ⟨("name", Value.str entry.1) :: entry.2⟩

theorem remove_key_eq_self {V : Type} (d : Dict V) (k : String)
    (h : k ∉ dictKeys d) : remove_key d k = d := by
  induction d with
  | nil => rfl
  | cons hd tl ih =>
      obtain ⟨k₂, v₂⟩ := hd
      simp only [dictKeys, List.map_cons, List.mem_cons] at h
      push_neg at h
      simp only [remove_key, List.filter_cons]
      rw [if_pos (by simpa using Ne.symm h.1)]
      have := ih (by simpa [dictKeys] using h.2)
      unfold remove_key at this
      rw [this]

theorem dictSet_append_of_not_mem {V : Type} (d : Dict V) (k : String) (v : V)
    (h : k ∉ dictKeys d) : dictSet d k v = d ++ [(k, v)] := by
  induction d with
  | nil => rfl
  | cons hd tl ih =>
      obtain ⟨k₂, v₂⟩ := hd
      simp only [dictKeys, List.map_cons, List.mem_cons] at h
      push_neg at h
      simp only [dictSet, if_neg (Ne.symm h.1)]
      rw [ih (by simpa [dictKeys] using h.2)]
      rfl

theorem foldl_dictSet_append {V : Type} (R acc : Dict V)
    (hnd : (dictKeys R).Nodup)
    (hdisj : ∀ k ∈ dictKeys R, k ∉ dictKeys acc) :
    R.foldl (fun a e => dictSet a e.1 e.2) acc = acc ++ R := by
  induction R generalizing acc with
  | nil => simp
  | cons e rest ih =>
      obtain ⟨p, params⟩ := e
      simp only [dictKeys, List.map_cons, List.nodup_cons] at hnd
      rw [List.foldl_cons]
      have hset : dictSet acc p params = acc ++ [(p, params)] :=
        dictSet_append_of_not_mem acc p params
          (hdisj p (by simp [dictKeys]))
      rw [show dictSet acc (p, params).1 (p, params).2
          = dictSet acc p params from rfl, hset]
      have hdisj' : ∀ k ∈ dictKeys rest, k ∉ dictKeys (acc ++ [(p, params)]) := by
        intro k hk
        rw [dictKeys_append, List.mem_append]
        rintro (hmem | hmem)
        · refine hdisj k ?_ hmem
          simp only [dictKeys, List.map_cons, List.mem_cons]
          right
          exact hk
        · simp only [dictKeys, List.map_cons, List.map_nil,
            List.mem_singleton] at hmem
          rw [hmem] at hk
          exact hnd.1 hk
      rw [ih (acc ++ [(p, params)]) hnd.2 hdisj']
      simp

theorem baseline_fold_of_config (R : Dict (Dict Value)) :
    ∀ acc : Dict (Dict Value),
      (dictKeys R).Nodup →
      (∀ entry ∈ R, "name" ∉ dictKeys entry.2) →
      (∀ k ∈ dictKeys R, k ∉ dictKeys acc) →
      R.foldl
        (fun acc entry =>
          match dictGet? (("name", Value.str entry.1) :: entry.2) "name" with
          | some (Value.str plugin_name) =>
              dictSet acc plugin_name
                (remove_key (("name", Value.str entry.1) :: entry.2) "name")
          | _ => acc)
        acc = acc ++ R := by
  induction R with
  | nil => intro acc _ _ _; simp
  | cons e rest ih =>
      intro acc hnd hnm hdisj
      obtain ⟨p, params⟩ := e
      simp only [dictKeys, List.map_cons, List.nodup_cons] at hnd
      rw [List.foldl_cons]
      have hstep :
          (match dictGet? (("name", Value.str (p, params).1) :: (p, params).2)
              "name" with
            | some (Value.str plugin_name) =>
                dictSet acc plugin_name
                  (remove_key
                    (("name", Value.str (p, params).1) :: (p, params).2) "name")
            | _ => acc)
          = acc ++ [(p, params)] := by
        rw [show dictGet? (("name", Value.str (p, params).1) :: (p, params).2)
            "name" = some (Value.str p) from by simp [dictGet?]]
        have hrk : remove_key (("name", Value.str p) :: params) "name"
            = params := by
          unfold remove_key
          rw [List.filter_cons, if_neg (by simp)]
          have := remove_key_eq_self params "name"
            (hnm (p, params) (List.mem_cons_self _ _))
          unfold remove_key at this
          rw [this]
        rw [show remove_key (("name", Value.str (p, params).1) :: (p, params).2)
            "name" = remove_key (("name", Value.str p) :: params) "name" from rfl,
          hrk]
        exact dictSet_append_of_not_mem acc p params
          (hdisj p (by simp [dictKeys]))
      rw [hstep]
      rw [ih (acc ++ [(p, params)]) hnd.2
        (fun entry he => hnm entry (List.mem_cons_of_mem _ he))
        ?_]
      · simp
      · intro k hk
        rw [dictKeys_append, List.mem_append]
        rintro (hmem | hmem)
        · exact hdisj k (by simp only [dictKeys, List.map_cons,
            List.mem_cons]; right; exact hk) hmem
        · simp only [dictKeys, List.map_cons, List.map_nil,
            List.mem_singleton] at hmem
          rw [hmem] at hk
          exact hnd.1 hk

theorem baseline_of_config_round_trip (R : Dict (Dict Value))
    (hnd : (dictKeys R).Nodup)
    (hnm : ∀ entry ∈ R, "name" ∉ dictKeys entry.2) :
    baseline_plugins_dict (baseline_of_config R) = R := by
  unfold baseline_plugins_dict baseline_of_config
  rw [List.foldl_map]
  rw [baseline_fold_of_config R [] hnd hnm (by intro k _ h; cases h)]
  rfl

/-- Claim C6 — Round-trip identity: merging a baseline produced from a
resolved configuration against a command line with no overrides (every
command-line parameter's default-origin flag reads "was default", nothing
disabled) reproduces the same resolved configuration. -/
theorem C6_round_trip_identity (R : Dict (Dict Value)) (args : Args)
    (hB : args.use_all_plugins = false)
    (hdis : args.disabled_plugins = [])
    (hflags : ∀ entry ∈ args.plugins, ∀ pe ∈ entry.2,
        dictGetD args.is_using_default_value pe.1 false = true)
    (hnd : (dictKeys R).Nodup)
    (hnm : ∀ entry ∈ R, "name" ∉ dictKeys entry.2) :
    merge_plugins_config (baseline_of_config R) args = R := by
  rw [merge_plugins_config, if_neg (by simp [hB])]
  unfold mergeB_config
  have htriples : get_prioritized_parameters args.plugins
      args.is_using_default_value false = [] := by
    unfold get_prioritized_parameters
    rw [List.flatMap_eq_nil_iff]
    intro entry he
    rw [List.filterMap_eq_nil_iff]
    intro pe hpe
    rw [if_neg]
    rw [hflags entry he pe hpe]
    decide
  rw [htriples, List.foldl_nil]
  unfold mergeB_seed
  rw [baseline_of_config_round_trip R hnd hnm, hdis]
  apply List.filter_eq_self.mpr
  intro entry _
  rfl

/-- A resolved configuration to round-trip through a baseline. -/
def ex_configRT : Dict (Dict Value) :=
  [("Base64HighEntropyString", [("base64_limit", Value.num 3)])]

/-- A command line supplying no overrides: its only parameter is flagged as
a default and nothing is disabled. -/
def ex_argsRT : Args :=
  { plugins := [("Base64HighEntropyString", [("base64_limit", Value.num 4)])]
    is_using_default_value := [("base64_limit", true)]
    use_all_plugins := false
    no_verify := true
    exclude_lines := none
    plugin_filenames := none
    disabled_plugins := [] }

theorem C6_round_trip_identity_witness :
    merge_plugins_config (baseline_of_config ex_configRT) ex_argsRT
      = ex_configRT :=
  C6_round_trip_identity ex_configRT ex_argsRT rfl rfl (by decide) (by decide)
    (by decide)

/-! ## Claim C8 — the Context A seed is a shallow copy -/

/-- The value of `args.plugins` observable after `merge_plugins_from_baseline`
returns.  Context A seeds the merge with `dict(args.plugins)`
(initialize.py:98) — a *shallow* copy: the inner parameter dicts are still
the caller's objects, and the in-place assignment
`plugins_dict[plugin_name][param_name] = param_value` (initialize.py:107)
writes through to them, while the outer dict's key set and inner-object
bindings are never changed; hence after the call `args.plugins` holds
exactly the resolved Context-A configuration.  Context B's assignments
(initialize.py:138) target the fresh per-record copies made by `_remove_key`
(initialize.py:85-93), so there `args.plugins` is left untouched. -/
def args_plugins_after_merge (baseline_plugins : List BaselinePlugin)
    (args : Args) : Dict (Dict Value) :=
  if args.use_all_plugins then mergeA_config baseline_plugins args
  else args.plugins

/-- Claim C8 — refuted as stated: on a concrete Context-A input whose baseline
overrides a defaulted command-line parameter, `args.plugins` differs after
the call from the value the caller passed in (it has become the resolved
configuration), so the caller-supplied mapping is *not* left unchanged. -/
theorem C8_contextA_mutates_args_plugins :
    args_plugins_after_merge ex_baseline ex_argsA ≠ ex_argsA.plugins
    ∧ args_plugins_after_merge ex_baseline ex_argsA
        = merge_plugins_config ex_baseline ex_argsA := by
  constructor
  · decide
  · decide

/-- A configuration handed to the instantiation stage: one catalog-known
plugin and one catalog-unknown plugin. -/
def exC7_dict : Dict (Dict Value) :=
  [("Base64HighEntropyString", [("base64_limit", Value.num 3)]),
   ("KeywordDetector", [])]

/-- The tuple `from_parser_builder` returns for `exC7_dict` against
`ex_catalog`: one slot per entry, the unknown plugin's slot `none`. -/
def exC7_out : List (Option PluginInstance) :=
  [some ⟨"Base64HighEntropyString", none, none, true,
    [("base64_limit", Value.num 3)]⟩,
   none]

theorem C7_slot_preservation_witness : exC7_out.length = exC7_dict.length :=
  (C7_slot_preservation ex_catalog exC7_dict ⟨none, none, true⟩ exC7_out
    rfl).1

end DetectSecrets
